import Mathlib

/-!
Verification of the `ByeTunes` comment-stripping scanner
(`clean_comments.py`) against its specification.

The scanner `remove_comments_swift` is a single-pass state machine over
the input text.  Its state is held in four variables, checked in a fixed
order on every iteration of the `while i < n` loop, exactly as in the
source:

  1. `in_string`            — inside a single-line `"…"` literal
  2. `in_multiline`         — inside a triple-quoted `"""…"""` literal
  3. `in_line_comment`      — inside a `//…` comment
  4. `block_comment_depth`  — `> 0` while inside (possibly nested) `/*…*/`
  5. otherwise: normal code scanning.

`loopStep` below is a direct transcription of the body of that loop:
given the current state, the character under the cursor and the unread
suffix after it, it returns the characters the iteration appends to
`output`, the updated state variables, and the unread suffix left after
the cursor advance.  `scanAux` iterates `loopStep` until the input is
exhausted, which is exactly the `while` loop; `runLoop` is the same loop
with an explicit iteration budget, used to state that the loop always
terminates within `len(source)` iterations.
-/

/-- The four state variables of the scanning loop of
`remove_comments_swift` in `clean_comments.py`, with the Python names. -/
structure ScanState where
  in_string : Bool
  in_multiline : Bool
  in_line_comment : Bool
  block_comment_depth : Nat
  deriving DecidableEq

/-- The body of the `while i < n` loop of `remove_comments_swift`,
transcribed branch by branch from `clean_comments.py`.  `c` is
`source[i]`, `rest` is `source[i+1:]`.  The result is the list of
characters this iteration appends to `output`, the updated state, and
the unread suffix after the iteration's cursor advance.  The
`startswith` tests of the source become equality tests on `c` and on
the first one or two characters of `rest`; each branch consumes and
emits exactly what the corresponding Python branch does. -/
def loopStep (st : ScanState) (c : Char) (rest : List Char) :
    List Char × ScanState × List Char :=
  if st.in_string then
    -- 1. Inside String "..."
    if c = '\\' then
      match rest with
      | [] => ([c], st, [])
      | d :: rest2 => ([c, d], st, rest2)
    else if c = '"' then
      ([c], { st with in_string := false }, rest)
    else
      ([c], st, rest)
  else if st.in_multiline then
    -- 2. Inside Multiline String """...""" ; the closing-delimiter test
    -- (startswith of three quotes) runs before the backslash test.
    if c = '"' then
      match rest with
      | d :: e :: rest3 =>
        if d = '"' then
          if e = '"' then
            (['"', '"', '"'], { st with in_multiline := false }, rest3)
          else
            ([c], st, d :: e :: rest3)
        else
          ([c], st, d :: e :: rest3)
      | r => ([c], st, r)
    else if c = '\\' then
      match rest with
      | [] => ([c], st, [])
      | d :: rest2 => ([c, d], st, rest2)
    else
      ([c], st, rest)
  else if st.in_line_comment then
    -- 3. Inside Line Comment //...  (keep the newline)
    if c = '\n' then
      ([c], { st with in_line_comment := false }, rest)
    else
      ([], st, rest)
  else if st.block_comment_depth > 0 then
    -- 4. Inside Block Comment /*...*/ ; nothing is appended here.
    if c = '/' then
      match rest with
      | d :: rest2 =>
        if d = '*' then
          ([], { st with block_comment_depth := st.block_comment_depth + 1 }, rest2)
        else
          ([], st, d :: rest2)
      | [] => ([], st, [])
    else if c = '*' then
      match rest with
      | d :: rest2 =>
        if d = '/' then
          ([], { st with block_comment_depth := st.block_comment_depth - 1 }, rest2)
        else
          ([], st, d :: rest2)
      | [] => ([], st, [])
    else
      ([], st, rest)
  else
    -- 5. CODE STATE: check """ first, then ", then //, then /*.
    if c = '"' then
      match rest with
      | d :: e :: rest3 =>
        if d = '"' then
          if e = '"' then
            (['"', '"', '"'], { st with in_multiline := true }, rest3)
          else
            ([c], { st with in_string := true }, d :: e :: rest3)
        else
          ([c], { st with in_string := true }, d :: e :: rest3)
      | r => ([c], { st with in_string := true }, r)
    else if c = '/' then
      match rest with
      | d :: rest2 =>
        if d = '/' then
          ([], { st with in_line_comment := true }, rest2)
        else if d = '*' then
          ([], { st with block_comment_depth := 1 }, rest2)
        else
          ([c], st, d :: rest2)
      | [] => ([c], st, [])
    else
      ([c], st, rest)

/-- Every loop iteration advances the cursor: the unread suffix returned
by `loopStep` is never longer than the suffix after the current
character (the iteration consumes at least the current character). -/
theorem loopStep_rest_length (st : ScanState) (c : Char) (rest : List Char) :
    (loopStep st c rest).2.2.length ≤ rest.length := by
  unfold loopStep
  repeat' split
  all_goals simp_all
  all_goals omega

/-- The `while i < n` loop of `remove_comments_swift`: iterate
`loopStep` from the given state until the input is exhausted, collecting
everything appended to `output`. -/
def scanAux (st : ScanState) : List Char → List Char
  | [] => []
  | c :: rest =>
    let r := loopStep st c rest
    r.1 ++ scanAux r.2.1 r.2.2
termination_by s => s.length
decreasing_by
  simp_wf
  exact Nat.lt_succ_of_le (loopStep_rest_length _ _ _)

/-- The initial state of `remove_comments_swift`: all flags `False`,
depth `0` (normal code scanning). -/
def initState : ScanState := ⟨false, false, false, 0⟩

/-- `remove_comments_swift` from `clean_comments.py`: run the scanning
loop from the initial state over the whole source text. -/
def remove_comments_swift (source : String) : String :=
  String.mk (scanAux initState source.data)

/-- The `while i < n` loop of `remove_comments_swift` with an explicit
iteration budget `fuel` and the explicit `output` buffer the Python code
appends to.  One unit of fuel is spent per loop iteration; `none` means
the budget was exhausted before the cursor reached the end of the input.
Since every iteration advances the cursor (`loopStep_rest_length`), a
budget equal to the input length always suffices. -/
def runLoop (fuel : Nat) (output : List Char) (st : ScanState) :
    List Char → Option (List Char)
  | [] => some output
  | c :: rest =>
    match fuel with
    | 0 => none
    | fuel + 1 =>
      let r := loopStep st c rest
      runLoop fuel (output ++ r.1) r.2.1 r.2.2
termination_by s => (fuel, s.length)
decreasing_by
  simp_wf
  omega

/-- Outcome of one `process_file` call, abstracting the file store: either
the file is overwritten with the given new content, or no write is
attempted and the outcome "no comments found" is reported. -/
inductive FileAction where
  | write (newContent : String)
  | reportNoComments
  deriving DecidableEq

/-- The per-file workflow of `process_file` in `clean_comments.py`,
modelled on the content it reads: run the scanner and write back only
when the result differs from what was read. -/
def process_file (content : String) : FileAction :=
  let new_content := remove_comments_swift content
  if new_content ≠ content then FileAction.write new_content else FileAction.reportNoComments

/-- Bodies of single-line string literals as the scanner consumes them:
a backslash always escapes the next character, and an unescaped `"` is
not part of the body (it would close the literal). -/
def stringBodyOk : List Char → Bool
  | [] => true
  | [c] => decide (c ≠ '"') && decide (c ≠ '\\')
  | c :: d :: t =>
    if c = '\\' then stringBodyOk t
    else decide (c ≠ '"') && stringBodyOk (d :: t)
termination_by l => l.length
decreasing_by all_goals simp_wf <;> omega

/-- Bodies of triple-quoted string literals as the scanner consumes
them: a backslash always escapes the next character; an unescaped
adjacent quote pair is fine as long as a non-quote body character
follows it (three adjacent quotes would read as the closing delimiter);
and the body must not end in a lone backslash, a lone quote or a quote
pair, since those would swallow or merge with the closing delimiter. -/
def mlBodyOk : List Char → Bool
  | [] => true
  | [c] => decide (c ≠ '"') && decide (c ≠ '\\')
  | [c, d] =>
    if c = '\\' then true
    else mlBodyOk [d]
  | c :: d :: e :: t =>
    if c = '\\' then mlBodyOk (e :: t)
    else if c = '"' then
      if d = '"' then decide (e ≠ '"') && mlBodyOk (e :: t)
      else mlBodyOk (d :: e :: t)
    else mlBodyOk (d :: e :: t)
termination_by l => l.length
decreasing_by all_goals simp_wf <;> omega

/-! ### Named states

The four flag combinations the scanner actually reaches, named after the
spec's five lexical states.  `initState` is the Code state. -/

/-- InString: inside a single-line `"…"` literal. -/
def stringState : ScanState := ⟨true, false, false, 0⟩

/-- InMultilineString: inside a `"""…"""` literal. -/
def multilineState : ScanState := ⟨false, true, false, 0⟩

/-- InLineComment: inside a `//…` comment. -/
def lineCommentState : ScanState := ⟨false, false, true, 0⟩

/-- InBlockComment at the given nesting depth (Code when the depth is 0). -/
def blockState (depth : Nat) : ScanState := ⟨false, false, false, depth⟩

theorem blockState_zero : blockState 0 = initState := rfl

/-! ### One-step unfolding lemmas for `scanAux`

Each lemma states what one iteration of the loop does in one state on
one shape of input, read off from the corresponding branch of
`loopStep`. -/

@[simp] theorem scanAux_nil (st : ScanState) : scanAux st [] = [] := by
  rw [scanAux.eq_def]

theorem scanAux_string_escape (d : Char) (cs : List Char) :
    scanAux stringState ('\\' :: d :: cs) = '\\' :: d :: scanAux stringState cs := by
  rw [scanAux.eq_def]; simp [loopStep, stringState]

theorem scanAux_string_escape_end :
    scanAux stringState ['\\'] = ['\\'] := by
  rw [scanAux.eq_def]; simp [loopStep, stringState]

theorem scanAux_string_close (cs : List Char) :
    scanAux stringState ('"' :: cs) = '"' :: scanAux initState cs := by
  rw [scanAux.eq_def]; simp [loopStep, stringState, initState]

theorem scanAux_string_char (c : Char) (cs : List Char) (h1 : c ≠ '\\') (h2 : c ≠ '"') :
    scanAux stringState (c :: cs) = c :: scanAux stringState cs := by
  rw [scanAux.eq_def]; simp [loopStep, stringState, h1, h2]

theorem scanAux_ml_close (cs : List Char) :
    scanAux multilineState ('"' :: '"' :: '"' :: cs) = '"' :: '"' :: '"' :: scanAux initState cs := by
  rw [scanAux.eq_def]; simp [loopStep, multilineState, initState]

theorem scanAux_ml_escape (d : Char) (cs : List Char) :
    scanAux multilineState ('\\' :: d :: cs) = '\\' :: d :: scanAux multilineState cs := by
  rw [scanAux.eq_def]; simp [loopStep, multilineState]

theorem scanAux_ml_escape_end :
    scanAux multilineState ['\\'] = ['\\'] := by
  rw [scanAux.eq_def]; simp [loopStep, multilineState]

theorem scanAux_ml_char (c : Char) (cs : List Char) (h1 : c ≠ '"') (h2 : c ≠ '\\') :
    scanAux multilineState (c :: cs) = c :: scanAux multilineState cs := by
  rw [scanAux.eq_def]; simp [loopStep, multilineState, h1, h2]

theorem scanAux_ml_quote_single (e : Char) (cs : List Char) (he : e ≠ '"') :
    scanAux multilineState ('"' :: e :: cs) = '"' :: scanAux multilineState (e :: cs) := by
  cases cs with
  | nil => rw [scanAux.eq_def]; simp [loopStep, multilineState, he]
  | cons f cs3 => rw [scanAux.eq_def]; simp [loopStep, multilineState, he]

theorem scanAux_ml_quote_end :
    scanAux multilineState ['"'] = ['"'] := by
  rw [scanAux.eq_def]; simp [loopStep, multilineState]

/-! ### Further multiline-state quote lemmas -/

theorem scanAux_ml_quote_pair_end :
    scanAux multilineState ['"', '"'] = ['"', '"'] := by
  have h1 := scanAux_ml_quote_end
  rw [scanAux.eq_def]
  simp [loopStep, multilineState]
  simpa [multilineState] using h1

theorem scanAux_ml_quote_pair (e : Char) (cs : List Char) (he : e ≠ '"') :
    scanAux multilineState ('"' :: '"' :: e :: cs)
      = '"' :: scanAux multilineState ('"' :: e :: cs) := by
  rw [scanAux.eq_def]; simp [loopStep, multilineState, he]

theorem scanAux_lc_newline (cs : List Char) :
    scanAux lineCommentState ('\n' :: cs) = '\n' :: scanAux initState cs := by
  rw [scanAux.eq_def]; simp [loopStep, lineCommentState, initState]

theorem scanAux_lc_drop (c : Char) (cs : List Char) (h : c ≠ '\n') :
    scanAux lineCommentState (c :: cs) = scanAux lineCommentState cs := by
  rw [scanAux.eq_def]; simp [loopStep, lineCommentState, h]

theorem scanAux_block_nest (depth : Nat) (cs : List Char) (h : 0 < depth) :
    scanAux (blockState depth) ('/' :: '*' :: cs) = scanAux (blockState (depth + 1)) cs := by
  rw [scanAux.eq_def]; simp [loopStep, blockState, h]

theorem scanAux_block_unnest (depth : Nat) (cs : List Char) (h : 0 < depth) :
    scanAux (blockState depth) ('*' :: '/' :: cs) = scanAux (blockState (depth - 1)) cs := by
  rw [scanAux.eq_def]; simp [loopStep, blockState, h]

theorem scanAux_block_drop (depth : Nat) (c : Char) (cs : List Char) (h : 0 < depth)
    (h1 : ¬(c = '/' ∧ cs.head? = some '*')) (h2 : ¬(c = '*' ∧ cs.head? = some '/')) :
    scanAux (blockState depth) (c :: cs) = scanAux (blockState depth) cs := by
  by_cases hc1 : c = '/'
  · cases cs with
    | nil => rw [scanAux.eq_def]; simp [loopStep, blockState, hc1, h]
    | cons d cs2 =>
        have hd : d ≠ '*' := by
          intro he; exact h1 ⟨hc1, by simp [he]⟩
        rw [scanAux.eq_def]; simp [loopStep, blockState, hc1, hd, h]
  · by_cases hc2 : c = '*'
    · cases cs with
      | nil => rw [scanAux.eq_def]; simp [loopStep, blockState, hc1, hc2, h]
      | cons d cs2 =>
          have hd : d ≠ '/' := by
            intro he; exact h2 ⟨hc2, by simp [he]⟩
          rw [scanAux.eq_def]; simp [loopStep, blockState, hc1, hc2, hd, h]
    · rw [scanAux.eq_def]; simp [loopStep, blockState, hc1, hc2, h]

theorem scanAux_code_triple (cs : List Char) :
    scanAux initState ('"' :: '"' :: '"' :: cs) = '"' :: '"' :: '"' :: scanAux multilineState cs := by
  rw [scanAux.eq_def]; simp [loopStep, initState, multilineState]

theorem scanAux_code_quote_single (e : Char) (cs : List Char) (he : e ≠ '"') :
    scanAux initState ('"' :: e :: cs) = '"' :: scanAux stringState (e :: cs) := by
  cases cs with
  | nil => rw [scanAux.eq_def]; simp [loopStep, initState, stringState, he]
  | cons f cs3 => rw [scanAux.eq_def]; simp [loopStep, initState, stringState, he]

theorem scanAux_code_quote_pair (e : Char) (cs : List Char) (he : e ≠ '"') :
    scanAux initState ('"' :: '"' :: e :: cs) = '"' :: scanAux stringState ('"' :: e :: cs) := by
  rw [scanAux.eq_def]; simp [loopStep, initState, stringState, he]

theorem scanAux_code_quote_end :
    scanAux initState ['"'] = ['"'] := by
  rw [scanAux.eq_def]; simp [loopStep, initState, stringState]

theorem scanAux_code_quote_pair_end :
    scanAux initState ['"', '"'] = ['"', '"'] := by
  have h1 : scanAux stringState ['"'] = ['"'] := by
    rw [scanAux_string_close]; simp
  rw [scanAux.eq_def]; simp [loopStep, initState]
  simpa [stringState] using h1

theorem scanAux_code_line_comment (cs : List Char) :
    scanAux initState ('/' :: '/' :: cs) = scanAux lineCommentState cs := by
  rw [scanAux.eq_def]; simp [loopStep, initState, lineCommentState]

theorem scanAux_code_block_open (cs : List Char) :
    scanAux initState ('/' :: '*' :: cs) = scanAux (blockState 1) cs := by
  rw [scanAux.eq_def]; simp [loopStep, initState, blockState]

theorem scanAux_code_char (c : Char) (cs : List Char) (h1 : c ≠ '"') (h2 : c ≠ '/') :
    scanAux initState (c :: cs) = c :: scanAux initState cs := by
  rw [scanAux.eq_def]; simp [loopStep, initState, h1, h2]

theorem scanAux_code_slash (d : Char) (cs : List Char) (h1 : d ≠ '/') (h2 : d ≠ '*') :
    scanAux initState ('/' :: d :: cs) = '/' :: scanAux initState (d :: cs) := by
  rw [scanAux.eq_def]; simp [loopStep, initState, h1, h2]

theorem scanAux_code_slash_end :
    scanAux initState ['/'] = ['/'] := by
  rw [scanAux.eq_def]; simp [loopStep, initState]

/-! ### Shape lemmas for the two loop drivers -/

theorem scanAux_cons (st : ScanState) (c : Char) (rest : List Char) :
    scanAux st (c :: rest)
      = (loopStep st c rest).1
          ++ scanAux (loopStep st c rest).2.1 (loopStep st c rest).2.2 := by
  rw [scanAux.eq_def]

theorem runLoop_nil (fuel : Nat) (acc : List Char) (st : ScanState) :
    runLoop fuel acc st [] = some acc := by
  rw [runLoop.eq_def]

theorem runLoop_zero (acc : List Char) (st : ScanState) (c : Char) (rest : List Char) :
    runLoop 0 acc st (c :: rest) = none := by
  rw [runLoop.eq_def]

theorem runLoop_cons (fuel : Nat) (acc : List Char) (st : ScanState) (c : Char)
    (rest : List Char) :
    runLoop (fuel + 1) acc st (c :: rest)
      = runLoop fuel (acc ++ (loopStep st c rest).1)
          (loopStep st c rest).2.1 (loopStep st c rest).2.2 := by
  rw [runLoop.eq_def]

/-! ### The loop with fuel `length s` computes `scanAux` -/

theorem runLoop_eq_scanAux : ∀ (fuel : Nat) (acc : List Char) (st : ScanState)
    (s : List Char), s.length ≤ fuel →
    runLoop fuel acc st s = some (acc ++ scanAux st s)
  | fuel, acc, st, [], h => by
      rw [runLoop_nil, scanAux_nil, List.append_nil]
  | 0, acc, st, c :: rest, h => by
      simp at h
  | fuel + 1, acc, st, c :: rest, h => by
      have hlen : (loopStep st c rest).2.2.length ≤ fuel := by
        have := loopStep_rest_length st c rest
        simp only [List.length_cons] at h
        omega
      rw [runLoop_cons, scanAux_cons,
        runLoop_eq_scanAux fuel _ _ _ hlen, List.append_assoc]

/-! ### The scanner output is a subsequence of its input -/

theorem scanAux_sublist : ∀ (st : ScanState) (s : List Char), (scanAux st s).Sublist s
  | st, [] => by simp
  | st, c :: rest => by
      rw [scanAux_cons]
      unfold loopStep
      repeat' split
      all_goals simp_all
      all_goals
        first
        | exact scanAux_sublist _ _
        | exact List.Sublist.cons _ (scanAux_sublist _ _)
        | exact List.Sublist.cons _ (List.Sublist.cons _ (scanAux_sublist _ _))
termination_by st s => s.length
decreasing_by all_goals (simp_wf; try simp_all; try omega)

/-! ### String-literal bodies scan verbatim -/

theorem scanAux_string_body : ∀ (body rest : List Char), stringBodyOk body = true →
    scanAux stringState (body ++ '"' :: rest) = body ++ '"' :: scanAux initState rest
  | [], rest, _ => by
      simpa using scanAux_string_close rest
  | [c], rest, h => by
      have hc : c ≠ '"' ∧ c ≠ '\\' := by simpa [stringBodyOk] using h
      have h2 := scanAux_string_body [] rest (by simp [stringBodyOk])
      simp only [List.cons_append, List.nil_append] at h2 ⊢
      rw [scanAux_string_char c _ hc.2 hc.1, h2]
  | c :: d :: t, rest, h => by
      by_cases hb : c = '\\'
      · subst hb
        have hsub : stringBodyOk t = true := by simpa [stringBodyOk] using h
        have ih := scanAux_string_body t rest hsub
        simp only [List.cons_append]
        rw [scanAux_string_escape, ih]
      · have hq : c ≠ '"' ∧ stringBodyOk (d :: t) = true := by
          have h2 := h
          simp [stringBodyOk, hb] at h2
          exact h2
        have ih := scanAux_string_body (d :: t) rest hq.2
        simp only [List.cons_append] at ih ⊢
        rw [scanAux_string_char c _ hb hq.1, ih]
termination_by body _ _ => body.length

theorem scanAux_ml_body : ∀ (body rest : List Char), mlBodyOk body = true →
    scanAux multilineState (body ++ '"' :: '"' :: '"' :: rest)
      = body ++ '"' :: '"' :: '"' :: scanAux initState rest
  | [], rest, _ => by
      simpa using scanAux_ml_close rest
  | [c], rest, h => by
      have hc : c ≠ '"' ∧ c ≠ '\\' := by simpa [mlBodyOk] using h
      have h2 := scanAux_ml_body [] rest (by simp [mlBodyOk])
      simp only [List.cons_append, List.nil_append] at h2 ⊢
      rw [scanAux_ml_char c _ hc.1 hc.2, h2]
  | [c, d], rest, h => by
      by_cases hb : c = '\\'
      · subst hb
        have h2 := scanAux_ml_body [] rest (by simp [mlBodyOk])
        simp only [List.cons_append, List.nil_append] at h2 ⊢
        rw [scanAux_ml_escape, h2]
      · have hsub : mlBodyOk [d] = true := by simpa [mlBodyOk, hb] using h
        have hd : d ≠ '"' ∧ d ≠ '\\' := by simpa [mlBodyOk] using hsub
        have ih := scanAux_ml_body [d] rest hsub
        simp only [List.cons_append, List.nil_append] at ih ⊢
        by_cases hq : c = '"'
        · subst hq
          rw [scanAux_ml_quote_single d _ hd.1, ih]
        · rw [scanAux_ml_char c _ hq hb, ih]
  | c :: d :: e :: t, rest, h => by
      by_cases hb : c = '\\'
      · subst hb
        have hsub : mlBodyOk (e :: t) = true := by simpa [mlBodyOk] using h
        have ih := scanAux_ml_body (e :: t) rest hsub
        simp only [List.cons_append] at ih ⊢
        rw [scanAux_ml_escape, ih]
      · by_cases hq : c = '"'
        · subst hq
          by_cases hd : d = '"'
          · subst hd
            have hyp : e ≠ '"' ∧ mlBodyOk (e :: t) = true := by
              simpa [mlBodyOk] using h
            have ih := scanAux_ml_body (e :: t) rest hyp.2
            simp only [List.cons_append] at ih ⊢
            rw [scanAux_ml_quote_pair e _ hyp.1, scanAux_ml_quote_single e _ hyp.1, ih]
          · have hsub : mlBodyOk (d :: e :: t) = true := by
              simpa [mlBodyOk, hd] using h
            have ih := scanAux_ml_body (d :: e :: t) rest hsub
            simp only [List.cons_append] at ih ⊢
            rw [scanAux_ml_quote_single d _ hd, ih]
        · have hsub : mlBodyOk (d :: e :: t) = true := by
            simpa [mlBodyOk, hb, hq] using h
          have ih := scanAux_ml_body (d :: e :: t) rest hsub
          simp only [List.cons_append] at ih ⊢
          rw [scanAux_ml_char c _ hq hb, ih]
termination_by body _ _ => body.length

/-! ### Line-comment bodies are dropped up to the newline -/

theorem scanAux_lc_body : ∀ (body rest : List Char), '\n' ∉ body →
    scanAux lineCommentState (body ++ '\n' :: rest) = '\n' :: scanAux initState rest
  | [], rest, _ => by
      simpa using scanAux_lc_newline rest
  | c :: t, rest, h => by
      have hc : c ≠ '\n' := fun he => h (he ▸ List.mem_cons_self c t)
      have ih := scanAux_lc_body t rest (fun hm => h (List.mem_cons_of_mem c hm))
      simp only [List.cons_append]
      rw [scanAux_lc_drop c _ hc, ih]

theorem stringBodyOk_head_ne (c : Char) (t : List Char)
    (h : stringBodyOk (c :: t) = true) : c ≠ '"' := by
  cases t with
  | nil => exact fun he => by simp [stringBodyOk, he] at h
  | cons d t2 =>
      by_cases hb : c = '\\'
      · exact hb ▸ (by decide)
      · exact fun he => by simp [stringBodyOk, hb, he] at h

/-! ## The claims -/

/-- C1 (counterexample): the claim predicts that in a multi-line string a
backslash-escaped closing delimiter `\"""` is treated as a real
terminator, so that in `"""\"""//x` the scanner would return to Code and
strip the trailing line comment, producing `"""\"""`.  In fact the
scanner leaves the whole input unchanged: the `//x` survives because the
scanner is still inside the multi-line string. -/
theorem claim1_counterexample :
    remove_comments_swift "\"\"\"\\\"\"\"//x" = "\"\"\"\\\"\"\"//x"
      ∧ remove_comments_swift "\"\"\"\\\"\"\"//x" ≠ "\"\"\"\\\"\"\"" := by
  have h1 : remove_comments_swift "\"\"\"\\\"\"\"//x" = "\"\"\"\\\"\"\"//x" := by
    simp [remove_comments_swift, scanAux, loopStep, initState]
  exact ⟨h1, by rw [h1]; decide⟩

/-- C1 (amended): inside a multi-line string the backslash escape
consumes the immediately following character, so a backslash-escaped
closing delimiter `\"""` does NOT terminate the literal: all four
characters are emitted and the scanner stays in the multi-line-string
state, provided the character after the three quotes is not yet another
quote. -/
theorem claim1_escaped_triple_quote_protected (cs : List Char)
    (h : cs.head? ≠ some '"') :
    scanAux multilineState ('\\' :: '"' :: '"' :: '"' :: cs)
      = '\\' :: '"' :: '"' :: '"' :: scanAux multilineState cs := by
  rw [scanAux_ml_escape]
  cases cs with
  | nil => rw [scanAux_ml_quote_pair_end]; simp
  | cons e cs2 =>
      have he : e ≠ '"' := by
        intro hee; exact h (by simp [hee])
      rw [scanAux_ml_quote_pair e cs2 he, scanAux_ml_quote_single e cs2 he]

/-- C1 witness: the amended theorem applied at `cs = ['x']`. -/
theorem claim1_witness :
    (['x'] : List Char).head? ≠ some '"'
      ∧ scanAux multilineState ['\\', '"', '"', '"', 'x']
          = '\\' :: '"' :: '"' :: '"' :: scanAux multilineState ['x'] :=
  ⟨by decide, claim1_escaped_triple_quote_protected ['x'] (by decide)⟩

/-- C2 (counterexample): `remove_comments_swift` is not idempotent.  On
`""/*c*/""""//y` the first pass yields `""""""//y` (the `//y` is emitted
from inside a string literal), but rescanning that output reads the six
quotes as an opened-and-closed multi-line string and then strips `//y`
as a line comment, yielding `""""""`. -/
theorem claim2_counterexample :
    remove_comments_swift (remove_comments_swift "\"\"/*c*/\"\"\"\"//y")
      ≠ remove_comments_swift "\"\"/*c*/\"\"\"\"//y" := by
  have h1 : remove_comments_swift "\"\"/*c*/\"\"\"\"//y" = "\"\"\"\"\"\"//y" := by
    simp [remove_comments_swift, scanAux, loopStep, initState]
  have h2 : remove_comments_swift "\"\"\"\"\"\"//y" = "\"\"\"\"\"\"" := by
    simp [remove_comments_swift, scanAux, loopStep, initState]
  rw [h1, h2]
  decide

/-- C2 (amended): idempotence holds exactly on the scanner's fixed
points: if a pass leaves the text unchanged, so does a second pass; for
general inputs a second pass may remove more (see the counterexample). -/
theorem claim2_idempotent_on_unchanged (s : String)
    (h : remove_comments_swift s = s) :
    remove_comments_swift (remove_comments_swift s) = remove_comments_swift s := by
  rw [h]
  exact h

/-- C2 witness: the amended theorem applied at `"ab"`, which the scanner
leaves unchanged. -/
theorem claim2_witness :
    remove_comments_swift "ab" = "ab"
      ∧ remove_comments_swift (remove_comments_swift "ab") = remove_comments_swift "ab" := by
  have h : remove_comments_swift "ab" = "ab" := by
    simp [remove_comments_swift, scanAux, loopStep, initState]
  exact ⟨h, claim2_idempotent_on_unchanged "ab" h⟩

/-- C3: inside a block comment, `/*` increments the depth, `*/`
decrements it (returning to Code exactly when the depth reaches zero,
since the Code state is the depth-0 state), every other character is
dropped, and in particular the nested example
`/* outer /* inner */ still outer */` scans to the empty string. -/
theorem claim3_nested_block_comments :
    (∀ (depth : Nat) (cs : List Char), 0 < depth →
        scanAux (blockState depth) ('/' :: '*' :: cs)
          = scanAux (blockState (depth + 1)) cs)
  ∧ (∀ (depth : Nat) (cs : List Char), 0 < depth →
        scanAux (blockState depth) ('*' :: '/' :: cs)
          = scanAux (blockState (depth - 1)) cs)
  ∧ (∀ (depth : Nat) (c : Char) (cs : List Char), 0 < depth →
        ¬(c = '/' ∧ cs.head? = some '*') → ¬(c = '*' ∧ cs.head? = some '/') →
        scanAux (blockState depth) (c :: cs) = scanAux (blockState depth) cs)
  ∧ blockState 0 = initState
  ∧ remove_comments_swift "/* outer /* inner */ still outer */" = "" := by
  refine ⟨fun depth cs h => scanAux_block_nest depth cs h,
    fun depth cs h => scanAux_block_unnest depth cs h,
    fun depth c cs h h1 h2 => scanAux_block_drop depth c cs h h1 h2,
    rfl, ?_⟩
  simp [remove_comments_swift, scanAux, loopStep, initState]

/-- C3 witness: the three transition rules applied at concrete inputs of
depths 1 and 2. -/
theorem claim3_witness :
    scanAux (blockState 1) ['/', '*', 'a'] = scanAux (blockState 2) ['a']
      ∧ scanAux (blockState 2) ['*', '/', 'b'] = scanAux (blockState 1) ['b']
      ∧ scanAux (blockState 1) ['x', '*'] = scanAux (blockState 1) ['*'] :=
  ⟨claim3_nested_block_comments.1 1 ['a'] (by decide),
   claim3_nested_block_comments.2.1 2 ['b'] (by decide),
   claim3_nested_block_comments.2.2.1 1 'x' ['*'] (by decide) (by decide) (by decide)⟩

/-- C4: a single-line string literal entered from the Code state is
copied verbatim — opening quote, body (in which a backslash escapes the
following character, so an escaped quote never terminates the literal)
and closing quote — and scanning resumes in Code after it; in particular
the source `x = "a\"b"` is left unchanged.  (If the body is empty, the
character after the closing quote must not be a third quote, since the
triple-quote check would then fire first.) -/
theorem claim4_string_literal_verbatim :
    (∀ (body rest : List Char), stringBodyOk body = true →
        (body = [] → rest.head? ≠ some '"') →
        scanAux initState ('"' :: body ++ '"' :: rest)
          = '"' :: body ++ '"' :: scanAux initState rest)
  ∧ remove_comments_swift "x = \"a\\\"b\"" = "x = \"a\\\"b\"" := by
  constructor
  · intro body rest h h2
    simp only [List.cons_append, List.nil_append]
    cases body with
    | nil =>
        simp only [List.nil_append]
        cases rest with
        | nil => simpa using scanAux_code_quote_pair_end
        | cons e rest2 =>
            have he : e ≠ '"' := by
              intro hee; exact h2 rfl (by simp [hee])
            rw [scanAux_code_quote_pair e rest2 he, scanAux_string_close]
    | cons c t =>
        simp only [List.cons_append]
        have hc : c ≠ '"' := stringBodyOk_head_ne c t h
        have hbody := scanAux_string_body (c :: t) rest h
        simp only [List.cons_append] at hbody
        rw [scanAux_code_quote_single c (t ++ '"' :: rest) hc, hbody]
  · simp [remove_comments_swift, scanAux, loopStep, initState]

/-- C4 witness: the general statement applied to the literal `"a"`
(body `a`) followed by empty rest. -/
theorem claim4_witness :
    stringBodyOk ['a'] = true
      ∧ scanAux initState ('"' :: ['a'] ++ '"' :: [])
          = '"' :: ['a'] ++ '"' :: scanAux initState [] := by
  have h : stringBodyOk ['a'] = true := by simp [stringBodyOk]
  exact ⟨h, claim4_string_literal_verbatim.1 ['a'] [] h
    (fun he => absurd he (by decide))⟩

/-- C5: a triple-quoted string literal is copied verbatim — both `"""`
delimiters and the whole body, even when the body contains `//` or `/*`
or an unescaped adjacent quote pair or spans several lines — and
nothing in it is removed; in particular `"""a//b\n/*c*/"""` is left
unchanged, and in `"""a""b//c"""//z` the literal (body `a""b//c`)
survives verbatim while the line comment after the closing delimiter is
stripped. -/
theorem claim5_multiline_literal_verbatim :
    (∀ (body rest : List Char), mlBodyOk body = true →
        scanAux initState ('"' :: '"' :: '"' :: body ++ '"' :: '"' :: '"' :: rest)
          = '"' :: '"' :: '"' :: body ++ '"' :: '"' :: '"' :: scanAux initState rest)
  ∧ remove_comments_swift "\"\"\"a//b\n/*c*/\"\"\"" = "\"\"\"a//b\n/*c*/\"\"\""
  ∧ remove_comments_swift "\"\"\"a\"\"b//c\"\"\"//z" = "\"\"\"a\"\"b//c\"\"\"" := by
  refine ⟨fun body rest h => ?_, ?_, ?_⟩
  · simp only [List.cons_append]
    rw [scanAux_code_triple, scanAux_ml_body body rest h]
  · simp [remove_comments_swift, scanAux, loopStep, initState]
  · simp [remove_comments_swift, scanAux, loopStep, initState]

/-- C5 witness: the general statement applied to the body `a""b`, which
contains an unescaped adjacent quote pair. -/
theorem claim5_witness :
    mlBodyOk ['a', '"', '"', 'b'] = true
      ∧ scanAux initState ('"' :: '"' :: '"' :: ['a', '"', '"', 'b'] ++ '"' :: '"' :: '"' :: [])
          = '"' :: '"' :: '"' :: ['a', '"', '"', 'b'] ++ '"' :: '"' :: '"' :: scanAux initState [] := by
  have h : mlBodyOk ['a', '"', '"', 'b'] = true := by simp [mlBodyOk]
  exact ⟨h, claim5_multiline_literal_verbatim.1 ['a', '"', '"', 'b'] [] h⟩

/-- C6: a line comment's `//` delimiter and its body up to but excluding
the next newline are dropped, while the newline itself is always
emitted; in particular `a //comment\nb` scans to `a \nb`. -/
theorem claim6_line_comment_newline :
    (∀ (body rest : List Char), '\n' ∉ body →
        scanAux initState ('/' :: '/' :: body ++ '\n' :: rest)
          = '\n' :: scanAux initState rest)
  ∧ remove_comments_swift "a //comment\nb" = "a \nb" := by
  constructor
  · intro body rest h
    simp only [List.cons_append]
    rw [scanAux_code_line_comment]
    exact scanAux_lc_body body rest h
  · simp [remove_comments_swift, scanAux, loopStep, initState]

/-- C6 witness: the general statement applied to the comment body `c`
followed by newline and `b`. -/
theorem claim6_witness :
    '\n' ∉ (['c'] : List Char)
      ∧ scanAux initState ('/' :: '/' :: ['c'] ++ '\n' :: ['b'])
          = '\n' :: scanAux initState ['b'] :=
  ⟨by decide, claim6_line_comment_newline.1 ['c'] ['b'] (by decide)⟩

/-- C7: the scanning loop is total and terminates within `length s`
iterations for every input and every state: running the loop with
iteration budget `length s` never exhausts the budget and returns
exactly the scanner's output — also on inputs that end inside an
unterminated string or comment, since those merely end the scan in
whatever state is active at end-of-input. -/
theorem claim7_scan_total_terminating :
    (∀ (st : ScanState) (s : List Char),
        runLoop s.length [] st s = some (scanAux st s))
  ∧ (∀ source : String,
        runLoop source.data.length [] initState source.data
          = some (remove_comments_swift source).data) := by
  have key : ∀ (st : ScanState) (s : List Char),
      runLoop s.length [] st s = some (scanAux st s) := fun st s => by
    simpa using runLoop_eq_scanAux s.length [] st s le_rfl
  exact ⟨key, fun source => by rw [key initState source.data]; rfl⟩

/-- C8: in the Code state the triple-quote check comes before the
single-quote check, so a position starting with `"""` always opens a
multi-line string (never an empty single-line string plus a stray
quote), a single quote not followed by two quotes opens a single-line
string, and the `//` and `/*` checks are reached only when both
string-start checks have failed — a position starting `//` enters the
line-comment state and one starting `/*` enters the block-comment state
at depth 1. -/
theorem claim8_code_check_order :
    (∀ cs : List Char,
        scanAux initState ('"' :: '"' :: '"' :: cs)
          = '"' :: '"' :: '"' :: scanAux multilineState cs)
  ∧ (∀ (e : Char) (cs : List Char), e ≠ '"' →
        scanAux initState ('"' :: e :: cs) = '"' :: scanAux stringState (e :: cs))
  ∧ (∀ cs : List Char,
        scanAux initState ('/' :: '/' :: cs) = scanAux lineCommentState cs)
  ∧ (∀ cs : List Char,
        scanAux initState ('/' :: '*' :: cs) = scanAux (blockState 1) cs) :=
  ⟨scanAux_code_triple,
   fun e cs he => scanAux_code_quote_single e cs he,
   scanAux_code_line_comment,
   scanAux_code_block_open⟩

/-- C8 witness: the single-quote component applied at `e = 'x'`. -/
theorem claim8_witness :
    ('x' : Char) ≠ '"'
      ∧ scanAux initState ['"', 'x'] = '"' :: scanAux stringState ['x'] :=
  ⟨by decide, claim8_code_check_order.2.1 'x' [] (by decide)⟩

/-- C9: the per-file workflow writes only when the scanner changed the
content: if the output equals the input the outcome is "no comments
found" and no write is attempted, and whenever a write is performed its
content is the scanner output and differs from what was read. -/
theorem claim9_write_gated_on_change :
    (∀ content : String, remove_comments_swift content = content →
        process_file content = FileAction.reportNoComments)
  ∧ (∀ content nc : String, process_file content = FileAction.write nc →
        nc ≠ content ∧ nc = remove_comments_swift content) := by
  constructor
  · intro content h
    simp [process_file, h]
  · intro content nc h
    by_cases he : remove_comments_swift content = content
    · simp [process_file, he] at h
    · simp [process_file, he] at h
      exact ⟨h ▸ he, h.symm⟩

/-- C9 witness: a comment-free file is reported as "no comments found"
with no write. -/
theorem claim9_witness :
    remove_comments_swift "x" = "x"
      ∧ process_file "x" = FileAction.reportNoComments := by
  have h : remove_comments_swift "x" = "x" := by
    simp [remove_comments_swift, scanAux, loopStep, initState]
  exact ⟨h, claim9_write_gated_on_change.1 "x" h⟩

/-- C10: from every state, the scanner's output is a subsequence of its
input (each output character is an input character, emitted at most
once, in order); consequently the output is never longer than the input
and the empty input yields the empty output. -/
theorem claim10_output_subsequence :
    (∀ (st : ScanState) (s : List Char), (scanAux st s).Sublist s)
  ∧ (∀ source : String,
        (remove_comments_swift source).length ≤ source.length)
  ∧ remove_comments_swift "" = "" := by
  refine ⟨scanAux_sublist, fun source => ?_, ?_⟩
  · have h := (scanAux_sublist initState source.data).length_le
    calc (remove_comments_swift source).length
        = (scanAux initState source.data).length := rfl
      _ ≤ source.data.length := h
      _ = source.length := rfl
  · simp [remove_comments_swift]
